import Mathlib

/-!
Verification of the mssql-synth-data-agent core logic.

This file gives a shallow embedding of the two mechanisms of the repository
that carry all of the testable behavior:

* the retry-with-feedback orchestrator `execute_analysis_with_retry` and its
  helpers (`normalize_task_output`, `parse_validator_output`,
  `collect_agent_outputs`) from `src/utils/crew_utils.py`, together with the
  per-entity persistence block of
  `src/05-sql-relationship-analyzer-agent/main.py`;
* the schema consolidator of `src/06-schema-consolidator/main.py`
  (file classification, merge, foreign-key deduplication, output write).

Modelling conventions
* JSON values are the inductive `PyJson` below.  The Python `json` library is
  modelled by an executable recursive-descent parser (`jsonParse`) and
  serializer (`jsonDumps`).  Numbers are modelled as integers (no claim under
  verification involves floating point); JSON objects are association lists
  in insertion order, with duplicate keys resolved at parse time exactly as
  Python dicts resolve them (first position kept, last value wins).
* Python truthiness of a parsed JSON value is `jsonTruthy`.  The dedup
  key's set membership uses Python semantics: `pyPrimEq` is Python `==` on
  hashable scalars, including the cross-type equalities `True == 1` and
  `False == 0`; a key tuple with a list- or dict-valued component is
  unhashable (`pyHashable`), and the dedup loop raises on it exactly as
  `key not in seen` raises `TypeError` in the program.
* `crew.kickoff()` together with the task outputs it deposits on
  `crew.tasks` is external, network-bound behavior; it is modelled as an
  oracle `Nat → Except Unit (List CrewTask)` giving, for each attempt
  number, either a raised exception (`.error`) or the list of tasks with
  their outputs.  The mutable `crew.tasks[0].description` field is threaded
  as explicit state; each oracle invocation is recorded in a trace together
  with the description in force when it ran.
* File-system effects are modelled by explicit input lists of
  (filename, content) pairs and by option-valued "written file" results.
-/

/-- JSON values, as produced by the Python `json` module: `null`, booleans,
numbers (modelled as integers), strings, arrays, objects (association lists
in insertion order). -/
inductive PyJson where
  | jnull : PyJson
  | jbool : Bool → PyJson
  | jnum : Int → PyJson
  | jstr : String → PyJson
  | jarr : List PyJson → PyJson
  | jobj : List (String × PyJson) → PyJson

/-- Python hashability of a parsed JSON value: lists and dicts are
unhashable — a dedup-key tuple containing one makes `key not in seen`
raise `TypeError` — while `None`, booleans, numbers and strings hash. -/
def pyHashable : PyJson → Bool
  | .jarr _ => false
  | .jobj _ => false
  | _ => true

/-- Python `==` on hashable parsed-JSON scalars, as set membership applies
it to dedup-key components.  Python compares booleans with numbers across
types (`True == 1`, `False == 0` — and their hashes agree, so set
membership follows `==`); every other cross-type comparison is unequal. -/
def pyPrimEq : PyJson → PyJson → Bool
  | .jnull, .jnull => true
  | .jbool a, .jbool b => a == b
  | .jnum a, .jnum b => a == b
  | .jbool a, .jnum b => (if a then (1 : Int) else 0) == b
  | .jnum a, .jbool b => a == (if b then (1 : Int) else 0)
  | .jstr a, .jstr b => a == b
  | _, _ => false

/-- Python truthiness of a parsed JSON value: `None`, `False`, `0`, `""`,
`[]` and the empty dict are falsy; everything else is truthy. -/
def jsonTruthy : PyJson → Bool
  | .jnull => false
  | .jbool b => b
  | .jnum n => n != 0
  | .jstr s => s != ""
  | .jarr xs => !xs.isEmpty
  | .jobj fs => !fs.isEmpty

/-- `d.get(k, dflt)` on a parsed JSON value: field lookup with a default.
(Keys of parser-produced objects are unique, so first match suffices.) -/
def jsonGet (j : PyJson) (k : String) (dflt : PyJson) : PyJson :=
  match j with
  | .jobj fs =>
    match fs.find? (fun kv => kv.1 == k) with
    | some kv => kv.2
    | none => dflt
  | _ => dflt

/-- Python-dict insertion: a duplicate key keeps its original position and
takes the new value; a new key is appended. -/
def objInsert : List (String × PyJson) → String → PyJson → List (String × PyJson)
  | [], k, v => [(k, v)]
  | (k0, v0) :: fs, k, v =>
    if k0 == k then (k0, v) :: fs else (k0, v0) :: objInsert fs k v

/-- JSON whitespace characters (RFC 8259 / Python `json`). -/
def isWsChar (c : Char) : Bool :=
  [' ', '\t', '\n', '\r'].contains c

/-- Drop leading JSON whitespace. -/
def skipWs (cs : List Char) : List Char :=
  cs.dropWhile isWsChar

/-- Value of a hexadecimal digit, if any (by code point: 0-9, a-f, A-F). -/
def hexDigitVal (c : Char) : Option Nat :=
  let n := c.toNat
  if 48 ≤ n && n ≤ 57 then some (n - 48)
  else if 97 ≤ n && n ≤ 102 then some (n - 87)
  else if 65 ≤ n && n ≤ 70 then some (n - 55)
  else none

/-- Parse the body of a JSON string literal (the opening quote already
consumed); returns the decoded characters and the input after the closing
quote.  Escapes are decoded as in Python `json`; raw control characters are
rejected. -/
def parseStringBody : List Char → Option (List Char × List Char)
  | [] => none
  | '"' :: rest => some ([], rest)
  | '\\' :: rest =>
    match rest with
    | '"' :: rs => (parseStringBody rs).map fun p => ('"' :: p.1, p.2)
    | '\\' :: rs => (parseStringBody rs).map fun p => ('\\' :: p.1, p.2)
    | '/' :: rs => (parseStringBody rs).map fun p => ('/' :: p.1, p.2)
    | 'b' :: rs => (parseStringBody rs).map fun p => (Char.ofNat 8 :: p.1, p.2)
    | 'f' :: rs => (parseStringBody rs).map fun p => (Char.ofNat 12 :: p.1, p.2)
    | 'n' :: rs => (parseStringBody rs).map fun p => ('\n' :: p.1, p.2)
    | 'r' :: rs => (parseStringBody rs).map fun p => ('\r' :: p.1, p.2)
    | 't' :: rs => (parseStringBody rs).map fun p => ('\t' :: p.1, p.2)
    | 'u' :: h1 :: h2 :: h3 :: h4 :: rs =>
      match hexDigitVal h1, hexDigitVal h2, hexDigitVal h3, hexDigitVal h4 with
      | some x, some y, some z, some w =>
        (parseStringBody rs).map fun p =>
          (Char.ofNat (4096 * x + 256 * y + 16 * z + w) :: p.1, p.2)
      | _, _, _, _ => none
    | _ => none
  | c :: rest =>
    if c.toNat < 32 then none
    else (parseStringBody rest).map fun p => (c :: p.1, p.2)

/-- Numeric value of a digit string. -/
def digitsToNat (ds : List Char) : Nat :=
  ds.foldl (fun n d => n * 10 + (d.toNat - 48)) 0

/-- Parse an unsigned JSON integer: a nonempty digit run without a redundant
leading zero, not followed by a fraction or exponent (floats are outside the
model). -/
def parseUnsignedInt (cs : List Char) : Option (Nat × List Char) :=
  let ds := cs.takeWhile Char.isDigit
  let rest := cs.dropWhile Char.isDigit
  match ds with
  | [] => none
  | '0' :: _ :: _ => none
  | _ =>
    match rest with
    | '.' :: _ => none
    | 'e' :: _ => none
    | 'E' :: _ => none
    | _ => some (digitsToNat ds, rest)

/-- Parse a JSON number (integer). -/
def loadsNum (cs : List Char) : Option (PyJson × List Char) :=
  match cs with
  | '-' :: rest => (parseUnsignedInt rest).map fun p => (PyJson.jnum (-(p.1 : Int)), p.2)
  | _ => (parseUnsignedInt cs).map fun p => (PyJson.jnum (p.1 : Int), p.2)

mutual

/-- Fuel-indexed recursive-descent JSON value parser; returns the value and
the unconsumed input.  The fuel only bounds nesting of recursive calls; the
top-level entry point supplies fuel ample for any input of the given
length. -/
def loadsVal : Nat → List Char → Option (PyJson × List Char)
  | 0, _ => none
  | fuel + 1, cs =>
    match skipWs cs with
    | 'n' :: 'u' :: 'l' :: 'l' :: rest => some (.jnull, rest)
    | 't' :: 'r' :: 'u' :: 'e' :: rest => some (.jbool true, rest)
    | 'f' :: 'a' :: 'l' :: 's' :: 'e' :: rest => some (.jbool false, rest)
    | '"' :: rest => (parseStringBody rest).map fun p => (.jstr (String.mk p.1), p.2)
    | '[' :: rest =>
      match skipWs rest with
      | ']' :: r2 => some (.jarr [], r2)
      | _ => loadsItems fuel rest []
    | '{' :: rest =>
      match skipWs rest with
      | '}' :: r2 => some (.jobj [], r2)
      | _ => loadsMembers fuel rest []
    | cs2 => loadsNum cs2

/-- Parse the comma-separated items of a nonempty JSON array (opening
bracket already consumed). -/
def loadsItems : Nat → List Char → List PyJson → Option (PyJson × List Char)
  | 0, _, _ => none
  | fuel + 1, cs, acc =>
    match loadsVal fuel cs with
    | none => none
    | some (v, rest) =>
      match skipWs rest with
      | ',' :: r2 => loadsItems fuel r2 (acc ++ [v])
      | ']' :: r2 => some (.jarr (acc ++ [v]), r2)
      | _ => none

/-- Parse the members of a nonempty JSON object (opening brace already
consumed), accumulating fields with Python-dict duplicate-key handling. -/
def loadsMembers : Nat → List Char → List (String × PyJson) → Option (PyJson × List Char)
  | 0, _, _ => none
  | fuel + 1, cs, acc =>
    match skipWs cs with
    | '"' :: rest =>
      match parseStringBody rest with
      | none => none
      | some (k, r1) =>
        match skipWs r1 with
        | ':' :: r2 =>
          match loadsVal fuel r2 with
          | none => none
          | some (v, r3) =>
            match skipWs r3 with
            | ',' :: r4 => loadsMembers fuel r4 (objInsert acc (String.mk k) v)
            | '}' :: r4 => some (.jobj (objInsert acc (String.mk k) v), r4)
            | _ => none
        | _ => none
    | _ => none

end

/-- `json.loads`: parse a complete JSON document; trailing non-whitespace
makes the parse fail (Python raises `json.JSONDecodeError`, modelled as
`none`). -/
def jsonParse (s : String) : Option PyJson :=
  match loadsVal (2 * s.data.length + 8) s.data with
  | some (v, rest) => if (skipWs rest).isEmpty then some v else none
  | none => none

/-- Escape backslashes and single quotes for Python string repr. -/
def pyReprEscape : List Char → List Char
  | [] => []
  | '\\' :: rest => '\\' :: '\\' :: pyReprEscape rest
  | '\'' :: rest => '\\' :: '\'' :: pyReprEscape rest
  | c :: rest => c :: pyReprEscape rest

/-- Escape backslashes and double quotes for JSON serialization (other
`json.dumps` escapes are outside the model). -/
def jsonDumpEscape : List Char → List Char
  | [] => []
  | '\\' :: rest => '\\' :: '\\' :: jsonDumpEscape rest
  | '"' :: rest => '\\' :: '"' :: jsonDumpEscape rest
  | c :: rest => c :: jsonDumpEscape rest

mutual

/-- Python `repr` of a parsed-JSON value, as interpolated by an f-string
(`True`/`False`/`None` capitalized, strings single-quoted, dicts in
insertion order).  Backslashes and single quotes inside strings are escaped;
other repr escapes are outside the model. -/
def PyJson.pyRepr : PyJson → String
  | .jnull => "None"
  | .jbool b => if b then "True" else "False"
  | .jnum n => toString n
  | .jstr s => "'" ++ String.mk (pyReprEscape s.data) ++ "'"
  | .jarr xs => "[" ++ PyJson.pyReprList xs ++ "]"
  | .jobj fs => "\x7b" ++ PyJson.pyReprFields fs ++ "\x7d"

/-- Comma-separated reprs of a list of values. -/
def PyJson.pyReprList : List PyJson → String
  | [] => ""
  | [x] => PyJson.pyRepr x
  | x :: xs => PyJson.pyRepr x ++ ", " ++ PyJson.pyReprList xs

/-- Comma-separated `'key': value` reprs of dict fields. -/
def PyJson.pyReprFields : List (String × PyJson) → String
  | [] => ""
  | [(k, v)] => "'" ++ k ++ "': " ++ PyJson.pyRepr v
  | (k, v) :: fs => "'" ++ k ++ "': " ++ PyJson.pyRepr v ++ ", " ++ PyJson.pyReprFields fs

end

mutual

/-- `json.dumps` with default separators: `", "` between items and `": "`
after keys. -/
def jsonDumps : PyJson → String
  | .jnull => "null"
  | .jbool b => if b then "true" else "false"
  | .jnum n => toString n
  | .jstr s => "\"" ++ String.mk (jsonDumpEscape s.data) ++ "\""
  | .jarr xs => "[" ++ jsonDumpsList xs ++ "]"
  | .jobj fs => "\x7b" ++ jsonDumpsFields fs ++ "\x7d"

/-- Comma-separated dumps of array items. -/
def jsonDumpsList : List PyJson → String
  | [] => ""
  | [x] => jsonDumps x
  | x :: xs => jsonDumps x ++ ", " ++ jsonDumpsList xs

/-- Comma-separated `"key": value` dumps of object fields. -/
def jsonDumpsFields : List (String × PyJson) → String
  | [] => ""
  | [(k, v)] => "\"" ++ k ++ "\": " ++ jsonDumps v
  | (k, v) :: fs => "\"" ++ k ++ "\": " ++ jsonDumps v ++ ", " ++ jsonDumpsFields fs

end

/-- Whitespace stripped by Python `str.strip()`. -/
def isPyStripChar (c : Char) : Bool :=
  [' ', '\t', '\n', '\r', Char.ofNat 11, Char.ofNat 12].contains c

/-- Python `str.strip()`: remove leading and trailing whitespace. -/
def pyStrip (s : String) : String :=
  String.mk (((s.data.dropWhile isPyStripChar).reverse.dropWhile isPyStripChar).reverse)

/-- Python `needle in s` substring test on character lists. -/
def listHasSub (pat : List Char) : List Char → Bool
  | [] => pat.isEmpty
  | c :: rest => pat.isPrefixOf (c :: rest) || listHasSub pat rest

/-- Python `needle in s` substring test on strings. -/
def strHasSub (needle s : String) : Bool :=
  listHasSub needle.data s.data

/-- The span matched by the greedy regex `\x7b[\s\S]*\x7d` used in
`parse_validator_output` (src/utils/crew_utils.py line 33): from the first
opening brace to the last closing brace after it, or `none` if no such span
exists. -/
def braceSpan (cs : List Char) : Option (List Char) :=
  let t := cs.dropWhile (fun c => c != '{')
  let u := (t.reverse.dropWhile (fun c => c != '}')).reverse
  if 2 ≤ u.length then some u else none

/-- `parse_validator_output` (src/utils/crew_utils.py lines 22-38): search
for the greedy brace-delimited span and `json.loads` it; on no span or a
failed parse, wrap the original string as `{"raw_output": <s>}`.  Total: a
decode error is caught, never propagated. -/
def parse_validator_output (s : String) : PyJson :=
  match braceSpan s.data with
  | some span =>
    match jsonParse (String.mk span) with
    | some j => j
    | none => PyJson.jobj [("raw_output", PyJson.jstr s)]
  | none => PyJson.jobj [("raw_output", PyJson.jstr s)]

/-- The output slot of one crew task after a kickoff, as inspected by
`normalize_task_output`: a TaskOutput object carrying a string `.raw`
attribute, a plain dict, or a plain string.  (The final `str(...)` fallback
of the source handles objects of no other kind reachable here.) -/
inductive TaskOut where
  | withRaw : String → TaskOut
  | dict : PyJson → TaskOut
  | plain : String → TaskOut

/-- One entry of `crew.tasks` as seen by `collect_agent_outputs`: the
agent's role string and the task's output attribute (`none` when absent). -/
structure CrewTask where
  role : String
  output : Option TaskOut

/-- Python truthiness of a task-output value (`if not task_output`): a
TaskOutput object is truthy, a dict or string is truthy iff nonempty. -/
def taskOutTruthy : TaskOut → Bool
  | .withRaw _ => true
  | .dict j => jsonTruthy j
  | .plain s => s != ""

/-- `normalize_task_output` (src/utils/crew_utils.py lines 4-19): a string
`.raw` attribute is stripped; a dict is `json.dumps`-ed; a string is
stripped. -/
def normalize_task_output : TaskOut → String
  | .withRaw r => pyStrip r
  | .dict j => jsonDumps j
  | .plain s => pyStrip s

/-- `collect_agent_outputs` (src/utils/crew_utils.py lines 41-68): scan the
tasks in order; a task with a falsy output is skipped; a role containing
"Analyst" sets the analyst result (last wins), else a role containing
"Validator" sets the parsed validator result (last wins, initial value the
empty dict). -/
def collect_agent_outputs (tasks : List CrewTask) : Option String × PyJson :=
  tasks.foldl
    (fun acc t =>
      match t.output with
      | none => acc
      | some out =>
        if taskOutTruthy out then
          let ts := normalize_task_output out
          if strHasSub "Analyst" t.role then (some ts, acc.2)
          else if strHasSub "Validator" t.role then (acc.1, parse_validator_output ts)
          else acc
        else acc)
    (none, PyJson.jobj [])

/-- The tuple returned by `execute_analysis_with_retry`: final validator
dict (None before any attempt completes), final analyst output, the
`validation_passed` value as returned (the raw field value on the success
path, the boolean False on exhaustion), and the attempt count. -/
structure RunResult where
  validator : Option PyJson
  analyst : Option String
  passed : PyJson
  attempts : Nat

/-- The retry instruction (src/utils/crew_utils.py lines 123-127): the
original base description with the previous validator result (Python
f-string interpolation, i.e. repr) and the corrective-feedback directive
appended. -/
def mkRetryDesc (base : String) (validatorResult : PyJson) : String :=
  base ++ "\n\n⚠️ Previous validation results:\n" ++ validatorResult.pyRepr ++
    "\nUse this feedback to improve the next query."

/-- External behavior of `crew.kickoff()` plus the outputs it deposits on
`crew.tasks`, per attempt number: `.error` models a raised exception during
the run, `.ok tasks` the task list afterwards. -/
abbrev KickoffOracle := Nat → Except Unit (List CrewTask)

/-- The orchestrator's mutable process state: the producer task's current
description (`crew.tasks[0].description`) and the last-seen outputs. -/
structure LoopState where
  desc : String
  finalAnalyst : Option String
  finalValidator : Option PyJson

/-- The retry loop of `execute_analysis_with_retry` (src/utils/crew_utils.py
lines 93-142).  `fuel` is the number of loop iterations remaining and
`attempt` the 1-based attempt number (the wrapper ties `fuel = maxRetries`,
`attempt = 1`).  Returns the trace of kickoff invocations — each recorded
with the description in force when it ran — and either the raised final
exception or the returned tuple. -/
def runLoop (oracle : KickoffOracle) (maxRetries : Nat) (base : String) :
    Nat → Nat → LoopState → List (Nat × String) × Except Unit RunResult
  | 0, _, st =>
    ([], .ok ⟨st.finalValidator, st.finalAnalyst, PyJson.jbool false, maxRetries⟩)
  | fuel + 1, attempt, st =>
    match oracle attempt with
    | .error _ =>
      if attempt == maxRetries then ([(attempt, st.desc)], .error ())
      else
        let p := runLoop oracle maxRetries base fuel (attempt + 1) st
        ((attempt, st.desc) :: p.1, p.2)
    | .ok tasks =>
      let co := collect_agent_outputs tasks
      let passed := jsonGet co.2 "validation_passed" (PyJson.jbool false)
      if jsonTruthy passed then
        ([(attempt, st.desc)], .ok ⟨some co.2, co.1, passed, attempt⟩)
      else
        let p := runLoop oracle maxRetries base fuel (attempt + 1)
          ⟨mkRetryDesc base co.2, co.1, some co.2⟩
        ((attempt, st.desc) :: p.1, p.2)

/-- `execute_analysis_with_retry` (src/utils/crew_utils.py lines 71-142),
with kickoff behavior abstracted as an oracle and the producer task's base
description passed explicitly (`crew.tasks[0].description` at entry). -/
def execute_analysis_with_retry (oracle : KickoffOracle) (baseDesc : String)
    (maxRetries : Nat) : List (Nat × String) × Except Unit RunResult :=
  runLoop oracle maxRetries baseDesc maxRetries 1 ⟨baseDesc, none, none⟩

/-- The kickoff-invocation trace of a run: one `(attempt, description)` pair
per workflow execution. -/
def execTrace (oracle : KickoffOracle) (baseDesc : String) (maxRetries : Nat) :
    List (Nat × String) :=
  (execute_analysis_with_retry oracle baseDesc maxRetries).1

/-- The outcome of a run: the raised exception or the returned tuple. -/
def execResult (oracle : KickoffOracle) (baseDesc : String) (maxRetries : Nat) :
    Except Unit RunResult :=
  (execute_analysis_with_retry oracle baseDesc maxRetries).2

/-- Outcome of the per-entity persistence block
(src/05-sql-relationship-analyzer-agent/main.py lines 170-176): no file, a
file with the parsed-and-redumped analyst JSON, or a truncated empty file
left behind when `json.loads(analyst_result)` raises after `open(..., "w")`
already created the file. -/
inductive PersistOutcome where
  | noFile
  | written : PyJson → PersistOutcome
  | emptyFileThenRaise

/-- Python truthiness of the analyst result (None or a string). -/
def optStrTruthy : Option String → Bool
  | none => false
  | some s => s != ""

/-- The persistence block: `if validation_success and analyst_result:` then
open-for-write and dump `json.loads(analyst_result)`; otherwise no file. -/
def persistEntityOutput (validationSuccess : PyJson) (analystResult : Option String) :
    PersistOutcome :=
  if jsonTruthy validationSuccess && optStrTruthy analystResult then
    match analystResult with
    | some s =>
      match jsonParse s with
      | some j => .written j
      | none => .emptyFileThenRaise
    | none => .noFile
  else .noFile

/-- One entity's pipeline: run the orchestrator, then the persistence block;
an exception from the run propagates (no file written). -/
def entityPersistRun (oracle : KickoffOracle) (baseDesc : String) (maxRetries : Nat) :
    Except Unit PersistOutcome :=
  match execResult oracle baseDesc maxRetries with
  | .error e => .error e
  | .ok r => .ok (persistEntityOutput r.passed r.analyst)

/-- The three buckets of the consolidated document
(src/06-schema-consolidator/main.py lines 11-15). -/
structure Buckets where
  foreign_keys : List PyJson
  columns : List PyJson
  tables : List PyJson

/-- The initial (empty) consolidated state. -/
def emptyBuckets : Buckets := ⟨[], [], []⟩

/-- Bucket names, used only in log messages. -/
inductive BucketKind where
  | foreignKeys | columns | tables
deriving DecidableEq

/-- The Python-side name of a bucket. -/
def bucketName : BucketKind → String
  | .foreignKeys => "foreign_keys"
  | .columns => "columns"
  | .tables => "tables"

/-- `detect_file_type` (src/06-schema-consolidator/main.py lines 17-26):
classify a lowercased filename by suffix; `relationships.json` → foreign
keys, `schema.json` → columns, exactly `tables.json` → tables, else
unclassified. -/
def detect_file_type (filename : String) : Option BucketKind :=
  let fname := filename.data.map Char.toLower
  if List.isSuffixOf "relationships.json".data fname then some .foreignKeys
  else if List.isSuffixOf "schema.json".data fname then some .columns
  else if fname == "tables.json".data then some .tables
  else none

/-- One input file of the consolidator: filename and raw content. -/
structure SrcFile where
  name : String
  content : String

/-- The records `consolidated[ftype].extend(data)` adds for a parsed
payload, after the `dict → [dict]` normalization: a dict contributes itself,
a list its elements, a string its characters (Python `extend` iterates it),
and a non-iterable (number, boolean, null) raises `TypeError`. -/
def extendRecords (data : PyJson) : Except Unit (List PyJson) :=
  match data with
  | .jobj fs => .ok [PyJson.jobj fs]
  | .jarr xs => .ok xs
  | .jstr s => .ok (s.data.map fun c => PyJson.jstr (String.mk [c]))
  | _ => .error ()

/-- Append records to the named bucket. -/
def addToBucket (b : Buckets) (k : BucketKind) (recs : List PyJson) : Buckets :=
  match k with
  | .foreignKeys => { b with foreign_keys := b.foreign_keys ++ recs }
  | .columns => { b with columns := b.columns ++ recs }
  | .tables => { b with tables := b.tables ++ recs }

/-- One iteration of the consolidator's file loop
(src/06-schema-consolidator/main.py lines 29-46): only filenames ending in
`.json` are considered; a JSON decode error is caught and logged; an
unclassifiable `.json` filename is logged and skipped; a classified payload
is merged (where a non-iterable payload raises).  Returns the updated
buckets and the log lines printed for this file. -/
def processOneFile (b : Buckets) (f : SrcFile) : Except Unit (Buckets × List String) :=
  if List.isSuffixOf ".json".data f.name.data then
    match jsonParse f.content with
    | none => .ok (b, ["⚠️ Skipping invalid JSON file: " ++ f.name])
    | some data =>
      match detect_file_type f.name with
      | some k =>
        match extendRecords data with
        | .ok recs =>
          .ok (addToBucket b k recs, ["✅ Merged " ++ f.name ++ " into " ++ bucketName k])
        | .error e => .error e
      | none => .ok (b, ["⚠️ Unknown file type for " ++ f.name ++ ", skipping."])
  else .ok (b, [])

/-- The consolidator's file loop over a directory listing: sequential,
short-circuiting on an uncaught exception, accumulating log lines. -/
def processFiles (b : Buckets) : List SrcFile → Except Unit (Buckets × List String)
  | [] => .ok (b, [])
  | f :: rest =>
    match processOneFile b f with
    | .error e => .error e
    | .ok p =>
      match processFiles p.1 rest with
      | .error e => .error e
      | .ok q => .ok (q.1, p.2 ++ q.2)

/-- Field lookup in a JSON object's association list. -/
def lookupField (fs : List (String × PyJson)) (k : String) : Option PyJson :=
  match fs.find? (fun kv => kv.1 == k) with
  | some kv => some kv.2
  | none => none

/-- The dedup key `(fk["table"], fk["column"], fk["ref_table"],
fk["ref_column"])` (src/06-schema-consolidator/main.py line 52); `none`
models the KeyError/TypeError raised when a record is not a dict or lacks
one of the four keys. -/
def fkKey (j : PyJson) : Option (PyJson × PyJson × PyJson × PyJson) :=
  match j with
  | .jobj fs =>
    match lookupField fs "table", lookupField fs "column",
        lookupField fs "ref_table", lookupField fs "ref_column" with
    | some a, some b, some c, some d => some (a, b, c, d)
    | _, _, _, _ => none
  | _ => none

/-- Equality of dedup keys: Python tuple `==`, componentwise `pyPrimEq`. -/
def keyBeq (a b : PyJson × PyJson × PyJson × PyJson) : Bool :=
  pyPrimEq a.1 b.1 && pyPrimEq a.2.1 b.2.1 &&
    pyPrimEq a.2.2.1 b.2.2.1 && pyPrimEq a.2.2.2 b.2.2.2

/-- Hashability of a dedup-key tuple: Python hashes a tuple by hashing
every component, so the tuple is hashable iff each component is. -/
def keyHashable (k : PyJson × PyJson × PyJson × PyJson) : Bool :=
  pyHashable k.1 && pyHashable k.2.1 && pyHashable k.2.2.1 && pyHashable k.2.2.2

/-- A record the Python dedup loop handles without raising: all four key
fields present (no KeyError/TypeError at indexing) and the key tuple
hashable (no TypeError at the membership test). -/
def fkKeyOk (x : PyJson) : Bool :=
  match fkKey x with
  | some k => keyHashable k
  | none => false

/-- The dedup loop (src/06-schema-consolidator/main.py lines 49-56): walk
the merged foreign-key records in order, keeping a record iff its key was
not seen before.  A record without all four key fields raises at indexing,
and a key with an unhashable (list/dict) component raises `TypeError` at
`key not in seen` — before any membership outcome. -/
def dedupFkLoop (seen : List (PyJson × PyJson × PyJson × PyJson)) (acc : List PyJson) :
    List PyJson → Except Unit (List PyJson)
  | [] => .ok acc
  | fk :: rest =>
    match fkKey fk with
    | none => .error ()
    | some k =>
      if keyHashable k then
        if seen.any (fun k0 => keyBeq k0 k) then dedupFkLoop seen acc rest
        else dedupFkLoop (k :: seen) (acc ++ [fk]) rest
      else .error ()

/-- Deduplicate the foreign-keys bucket, starting from an empty seen-set. -/
def dedupForeignKeys (fks : List PyJson) : Except Unit (List PyJson) :=
  dedupFkLoop [] [] fks

/-- The whole consolidation run (src/06-schema-consolidator/main.py): file
loop, then foreign-key dedup, then (on success) the output document; an
uncaught exception anywhere aborts before the output write. -/
def consolidateRun (files : List SrcFile) : Except Unit (Buckets × List String) :=
  match processFiles emptyBuckets files with
  | .error e => .error e
  | .ok p =>
    match dedupForeignKeys p.1.foreign_keys with
    | .error e => .error e
    | .ok fks => .ok ({ p.1 with foreign_keys := fks }, p.2)

/-- The consolidated output file after a run: written (replacing any prior
content) only when the run completes; an aborted run leaves the prior file
untouched, because the write happens after the dedup loop. -/
def consolidatedFileAfterRun (prior : Option Buckets) (files : List SrcFile) :
    Option Buckets :=
  match consolidateRun files with
  | .ok r => some r.1
  | .error _ => prior

/-- Records contributed by one file to one bucket, as merged by the file
loop (empty for skipped or differently-classified files; the `.error` case
of `extendRecords` cannot contribute on a completed run). -/
def fileContrib (k : BucketKind) (f : SrcFile) : List PyJson :=
  if List.isSuffixOf ".json".data f.name.data then
    match jsonParse f.content with
    | some data =>
      match detect_file_type f.name with
      | some k2 =>
        if k2 = k then
          match extendRecords data with
          | .ok recs => recs
          | .error _ => []
        else []
      | none => []
    | none => []
  else []

/-- Modelled from the spec: "Deduplication: only the foreign-keys bucket is
deduplicated, by the 4-tuple (table, column, ref_table, ref_column); first
occurrence wins, later duplicates are dropped silently."  The canonical
keep-first-occurrence recursion, to be compared with the source's
`dedupForeignKeys` loop. -/
def sameFkKey (x y : PyJson) : Bool :=
  match fkKey x, fkKey y with
  | some a, some b => keyBeq a b
  | _, _ => false

/-- Modelled from the spec (continued): keep each record whose key did not
occur earlier; drop later duplicates. -/
def keepFirstByKey : List PyJson → List PyJson
  | [] => []
  | x :: xs => x :: keepFirstByKey (xs.filter fun y => !(sameFkKey x y))
termination_by l => l.length
decreasing_by
  simp only [List.length_cons]
  exact Nat.lt_succ_of_le (List.length_filter_le _ _)

/-- Whether a record's dedup key is already in the seen set (false also for
keyless records, which the loop rejects before this test matters). -/
def keyInSeen (seen : List (PyJson × PyJson × PyJson × PyJson)) (y : PyJson) : Bool :=
  match fkKey y with
  | some k => seen.any (fun k0 => keyBeq k0 k)
  | none => false

/-- A task list whose validator output reports `validation_passed` as the
string "true" (truthy, not boolean). -/
def tasksTruthy : List CrewTask :=
  [⟨"Expert Database Validator",
    some (.withRaw "\x7b\"validation_passed\": \"true\"\x7d")⟩]

/-- A task list whose validator output reports `validation_passed: false`. -/
def tasksFailing : List CrewTask :=
  [⟨"Some Validator", some (.plain "\x7b\"validation_passed\": false\x7d")⟩]

/-- Kickoff behavior whose every attempt completes and fails validation. -/
def oracleAllFail : KickoffOracle := fun _ => .ok tasksFailing

/-- Kickoff behavior whose every attempt raises. -/
def oracleAllRaise : KickoffOracle := fun _ => .error ()

/-- The spec's FK_A record (first occurrence of the duplicated key). -/
def fkRecA : PyJson :=
  PyJson.jobj [("table", PyJson.jstr "Orders"), ("column", PyJson.jstr "CustomerID"),
    ("ref_table", PyJson.jstr "Customers"), ("ref_column", PyJson.jstr "CustomerID"),
    ("name", PyJson.jstr "FK_A")]

/-- The spec's FK_B record (same key as FK_A, different name). -/
def fkRecB : PyJson :=
  PyJson.jobj [("table", PyJson.jstr "Orders"), ("column", PyJson.jstr "CustomerID"),
    ("ref_table", PyJson.jstr "Customers"), ("ref_column", PyJson.jstr "CustomerID"),
    ("name", PyJson.jstr "FK_B")]

/-- A relationships file containing exactly FK_A. -/
def fkFileA : SrcFile :=
  ⟨"a_relationships.json",
   "[\x7b\"table\": \"Orders\", \"column\": \"CustomerID\", \"ref_table\": \"Customers\", \"ref_column\": \"CustomerID\", \"name\": \"FK_A\"\x7d]"⟩

/-- A relationships file containing exactly FK_B. -/
def fkFileB : SrcFile :=
  ⟨"b_relationships.json",
   "[\x7b\"table\": \"Orders\", \"column\": \"CustomerID\", \"ref_table\": \"Customers\", \"ref_column\": \"CustomerID\", \"name\": \"FK_B\"\x7d]"⟩

/-- A schema file with two column records. -/
def colFileA : SrcFile := ⟨"a_schema.json", "[\x7b\"c\": 1\x7d, \x7b\"c\": 2\x7d]"⟩

/-- A schema file with one column record. -/
def colFileB : SrcFile := ⟨"b_schema.json", "[\x7b\"c\": 3\x7d]"⟩

/-- A file with invalid JSON content. -/
def invalidFile : SrcFile := ⟨"bad.json", "not json"⟩

/-- A relationships file whose single record lacks the four key fields. -/
def badFkFile : SrcFile := ⟨"x_relationships.json", "[\x7b\"name\": \"f\"\x7d]"⟩

/-- A record whose `table` key field is the integer 1. -/
def fkRecIntKey : PyJson :=
  PyJson.jobj [("table", PyJson.jnum 1), ("column", PyJson.jstr "c"),
    ("ref_table", PyJson.jstr "t"), ("ref_column", PyJson.jstr "r"),
    ("name", PyJson.jstr "N1")]

/-- A record whose `table` key field is the boolean True — in Python its
key tuple equals `fkRecIntKey`'s, since `True == 1`. -/
def fkRecBoolKey : PyJson :=
  PyJson.jobj [("table", PyJson.jbool true), ("column", PyJson.jstr "c"),
    ("ref_table", PyJson.jstr "t"), ("ref_column", PyJson.jstr "r"),
    ("name", PyJson.jstr "N2")]

/-- A record whose `table` key field is a list — unhashable in Python, so
the dedup membership test raises `TypeError` on it. -/
def fkRecListKey : PyJson :=
  PyJson.jobj [("table", PyJson.jarr []), ("column", PyJson.jstr "c"),
    ("ref_table", PyJson.jstr "t"), ("ref_column", PyJson.jstr "r"),
    ("name", PyJson.jstr "N3")]

/-- The kickoff behavior refuting claim C1 as stated: the first attempt's
validator emits `validation_passed` as the string "true" (truthy but not
the boolean true); later attempts report failure. -/
def oracleTruthyString : KickoffOracle := fun n =>
  if n == 1 then .ok tasksTruthy else .ok tasksFailing

/-- The kickoff behavior refuting claim C2 as stated: the validator passes
on attempt 1 but there is no analyst task output at all, so
`analyst_result` stays None. -/
def oracleNoAnalyst : KickoffOracle := fun _ =>
  .ok [⟨"Expert Database Validator",
    some (.withRaw "\x7b\"validation_passed\": true\x7d")⟩]

/-- The `validation_passed` value extracted from a task list's collected
validator result. -/
def passedOf (tasks : List CrewTask) : PyJson :=
  jsonGet (collect_agent_outputs tasks).2 "validation_passed" (PyJson.jbool false)

/-- Attempt `j` raises during `crew.kickoff()`. -/
def attemptRaises (oracle : KickoffOracle) (j : Nat) : Prop :=
  oracle j = .error ()

/-- Attempt `j` completes with task list `tasks` and fails validation. -/
def attemptFailsWith (oracle : KickoffOracle) (j : Nat) (tasks : List CrewTask) : Prop :=
  oracle j = .ok tasks ∧ jsonTruthy (passedOf tasks) = false

/-- Attempt `j` does not pass: it raises or completes with a validator
result whose `validation_passed` is not truthy. -/
def attemptNonPassing (oracle : KickoffOracle) (j : Nat) : Prop :=
  attemptRaises oracle j ∨ ∃ tasks, attemptFailsWith oracle j tasks

theorem runLoop_trace_head (oracle : KickoffOracle) (maxR : Nat) (base : String)
    (fuel attempt : Nat) (st : LoopState) :
    ∃ rest, (runLoop oracle maxR base (fuel + 1) attempt st).1 =
      (attempt, st.desc) :: rest := by
  simp only [runLoop]
  cases h : oracle attempt with
  | error e =>
    by_cases hm : attempt == maxR <;> simp [hm]
  | ok tasks =>
    by_cases hp : jsonTruthy (jsonGet (collect_agent_outputs tasks).2
        "validation_passed" (PyJson.jbool false)) <;> simp [hp]

theorem runLoop_trace_len (oracle : KickoffOracle) (maxR : Nat) (base : String) :
    ∀ fuel attempt st, (runLoop oracle maxR base fuel attempt st).1.length ≤ fuel := by
  intro fuel
  induction fuel with
  | zero => intro attempt st; simp [runLoop]
  | succ n ih =>
    intro attempt st
    simp only [runLoop]
    cases h : oracle attempt with
    | error e =>
      by_cases hm : attempt == maxR
      · simp [hm]
      · simp only [hm, if_false, List.length_cons]
        exact Nat.succ_le_succ (ih _ _)
    | ok tasks =>
      by_cases hp : jsonTruthy (jsonGet (collect_agent_outputs tasks).2
          "validation_passed" (PyJson.jbool false))
      · simp [hp]
      · simp only [hp, if_false, List.length_cons]
        exact Nat.succ_le_succ (ih _ _)

theorem runLoop_trace_fst (oracle : KickoffOracle) (maxR : Nat) (base : String) :
    ∀ fuel attempt st, (runLoop oracle maxR base fuel attempt st).1.map Prod.fst =
      List.range' attempt (runLoop oracle maxR base fuel attempt st).1.length := by
  intro fuel
  induction fuel with
  | zero => intro attempt st; simp [runLoop]
  | succ n ih =>
    intro attempt st
    simp only [runLoop]
    cases h : oracle attempt with
    | error e =>
      by_cases hm : attempt == maxR
      · simp [hm]
      · simp [hm, ih, List.range'_succ]
    | ok tasks =>
      by_cases hp : jsonTruthy (jsonGet (collect_agent_outputs tasks).2
          "validation_passed" (PyJson.jbool false))
      · simp [hp]
      · simp [hp, ih, List.range'_succ]

theorem runLoop_reach (oracle : KickoffOracle) (maxR : Nat) (base : String) :
    ∀ fuel attempt st k, attempt ≤ k → k ≤ maxR → attempt + fuel = maxR + 1 →
    (∀ j, attempt ≤ j → j < k → attemptNonPassing oracle j) →
    ∃ st2 pre,
      runLoop oracle maxR base fuel attempt st =
        (pre ++ (runLoop oracle maxR base (maxR + 1 - k) k st2).1,
         (runLoop oracle maxR base (maxR + 1 - k) k st2).2) ∧
      pre.map Prod.fst = List.range' attempt (k - attempt) := by
  intro fuel
  induction fuel with
  | zero =>
    intro attempt st k h1 h2 h3 _
    exfalso; omega
  | succ n ih =>
    intro attempt st k h1 h2 h3 h4
    rcases Nat.eq_or_lt_of_le h1 with heq | hlt
    · subst heq
      refine ⟨st, [], ?_, by simp⟩
      have hf : maxR + 1 - attempt = n + 1 := by omega
      rw [hf]
      simp
    · have hne : attempt ≠ maxR := by omega
      have hbeq : (attempt == maxR) = false := by simp [hne]
      rcases h4 attempt le_rfl hlt with hr | ⟨tasks, hok, hfail⟩
      · obtain ⟨st2, pre, hEq, hFst⟩ := ih (attempt + 1) st k (by omega) h2 (by omega)
          (fun j hj1 hj2 => h4 j (by omega) hj2)
        refine ⟨st2, (attempt, st.desc) :: pre, ?_, ?_⟩
        · rw [attemptRaises] at hr
          simp only [runLoop, hr]
          rw [hEq]
          simp [hbeq]
        · have hk : k - attempt = (k - (attempt + 1)) + 1 := by omega
          simp only [List.map_cons, hFst, hk, List.range'_succ]
      · have hfail2 : jsonTruthy (jsonGet (collect_agent_outputs tasks).2
            "validation_passed" (PyJson.jbool false)) = false := hfail
        obtain ⟨st2, pre, hEq, hFst⟩ := ih (attempt + 1)
          ⟨mkRetryDesc base (collect_agent_outputs tasks).2,
            (collect_agent_outputs tasks).1, some (collect_agent_outputs tasks).2⟩
          k (by omega) h2 (by omega) (fun j hj1 hj2 => h4 j (by omega) hj2)
        refine ⟨st2, (attempt, st.desc) :: pre, ?_, ?_⟩
        · simp only [runLoop, hok]
          rw [hEq]
          simp [hfail2]
        · have hk : k - attempt = (k - (attempt + 1)) + 1 := by omega
          simp only [List.map_cons, hFst, hk, List.range'_succ]

theorem mem_pairs_unique {α : Type} :
    ∀ (l : List (Nat × α)), (l.map Prod.fst).Nodup →
    ∀ (a : Nat) (d1 d2 : α), (a, d1) ∈ l → (a, d2) ∈ l → d1 = d2 := by
  intro l
  induction l with
  | nil => intro _ a d1 d2 h1; cases h1
  | cons hd tl ih =>
    intro hn a d1 d2 h1 h2
    simp only [List.map_cons, List.nodup_cons] at hn
    rcases List.mem_cons.mp h1 with he1 | ht1 <;>
      rcases List.mem_cons.mp h2 with he2 | ht2
    · rw [← he2] at he1; exact (Prod.mk.injEq _ _ _ _).mp he1.symm |>.2.symm ▸ rfl
    · exfalso
      apply hn.1
      have : a = hd.1 := by rw [← he1]
      rw [this] at ht2
      exact List.mem_map.mpr ⟨(hd.1, d2), ht2, rfl⟩
    · exfalso
      apply hn.1
      have : a = hd.1 := by rw [← he2]
      rw [this] at ht1
      exact List.mem_map.mpr ⟨(hd.1, d1), ht1, rfl⟩
    · exact ih hn.2 a d1 d2 ht1 ht2

theorem runLoop_desc_inv (oracle : KickoffOracle) (maxR : Nat) (base : String) :
    ∀ fuel attempt st, (st.desc = base ∨ ∃ v, st.desc = mkRetryDesc base v) →
    ∀ e ∈ (runLoop oracle maxR base fuel attempt st).1,
      e.2 = base ∨ ∃ v, e.2 = mkRetryDesc base v := by
  intro fuel
  induction fuel with
  | zero => intro attempt st _ e he; simp [runLoop] at he
  | succ n ih =>
    intro attempt st hst e he
    cases h : oracle attempt with
    | error u =>
      by_cases hm : (attempt == maxR) = true
      · simp only [runLoop, h, hm, if_true, List.mem_singleton] at he
        exact he ▸ hst
      · have hm2 : (attempt == maxR) = false := by simpa using hm
        simp only [runLoop, h, hm2, Bool.false_eq_true, if_false, List.mem_cons] at he
        rcases he with he | he
        · exact he ▸ hst
        · exact ih _ st hst e he
    | ok tasks =>
      by_cases hp : jsonTruthy (jsonGet (collect_agent_outputs tasks).2
          "validation_passed" (PyJson.jbool false)) = true
      · simp only [runLoop, h, hp, if_true, List.mem_singleton] at he
        exact he ▸ hst
      · have hp2 : jsonTruthy (jsonGet (collect_agent_outputs tasks).2
            "validation_passed" (PyJson.jbool false)) = false := by simpa using hp
        simp only [runLoop, h, hp2, Bool.false_eq_true, if_false, List.mem_cons] at he
        rcases he with he | he
        · exact he ▸ hst
        · exact ih _ _ (Or.inr ⟨(collect_agent_outputs tasks).2, rfl⟩) e he

/-- Claim C5: for all max_retries >= 1, the orchestrator executes the
workflow at most max_retries times; and if the validator reports a passing
result on attempt k (k <= max_retries) while no earlier attempt passed, the
orchestrator returns immediately with attempts = k — the executed attempts
are exactly 1..k, so attempt k+1 is never run. -/
theorem c5_retry_bound_and_early_return
    (oracle : KickoffOracle) (base : String) (maxR : Nat) (hmax : 1 ≤ maxR) :
    (execTrace oracle base maxR).length ≤ maxR ∧
    (∀ k tasks, 1 ≤ k → k ≤ maxR →
      (∀ j, 1 ≤ j → j < k → attemptNonPassing oracle j) →
      oracle k = .ok tasks → jsonTruthy (passedOf tasks) = true →
      execResult oracle base maxR =
        .ok ⟨some (collect_agent_outputs tasks).2, (collect_agent_outputs tasks).1,
          passedOf tasks, k⟩ ∧
      (execTrace oracle base maxR).map Prod.fst = List.range' 1 k) := by
  constructor
  · exact runLoop_trace_len oracle maxR base maxR 1 _
  · intro k tasks hk1 hk2 hprev hok hpass
    obtain ⟨st2, pre, hEq, hFst⟩ :=
      runLoop_reach oracle maxR base maxR 1 ⟨base, none, none⟩ k hk1 hk2 (by omega) hprev
    have hpass2 : jsonTruthy (jsonGet (collect_agent_outputs tasks).2
        "validation_passed" (PyJson.jbool false)) = true := hpass
    have hf : maxR + 1 - k = (maxR - k) + 1 := by omega
    have hInner : runLoop oracle maxR base (maxR + 1 - k) k st2 =
        ([(k, st2.desc)], .ok ⟨some (collect_agent_outputs tasks).2,
          (collect_agent_outputs tasks).1,
          jsonGet (collect_agent_outputs tasks).2 "validation_passed" (PyJson.jbool false), k⟩) := by
      rw [hf]
      simp only [runLoop, hok]
      simp [hpass2]
    have hE : execute_analysis_with_retry oracle base maxR =
        (pre ++ (runLoop oracle maxR base (maxR + 1 - k) k st2).1,
         (runLoop oracle maxR base (maxR + 1 - k) k st2).2) := hEq
    constructor
    · show (execute_analysis_with_retry oracle base maxR).2 = _
      rw [hE, hInner]
      rfl
    · show ((execute_analysis_with_retry oracle base maxR).1).map Prod.fst = _
      rw [hE, hInner]
      have happ := List.range'_append_1 1 (k - 1) 1
      simp only [List.map_append, hFst, List.map_cons, List.map_nil]
      rw [show (1 : Nat) + (k - 1) = k by omega] at happ
      rw [show [k] = List.range' k 1 by simp, happ]

/-- Claim C6: if every attempt up to max_retries completes but fails
validation, the orchestrator returns — as a normal result, not an exception
— validation_passed = the boolean False, attempts = max_retries, and the
collected producer and validator outputs of the last attempt. -/
theorem c6_exhaustion_returns_last_outputs
    (oracle : KickoffOracle) (base : String) (maxR : Nat) (hmax : 1 ≤ maxR)
    (hall : ∀ j, 1 ≤ j → j ≤ maxR → ∃ tasks, attemptFailsWith oracle j tasks) :
    ∀ tasksM, oracle maxR = .ok tasksM →
      execResult oracle base maxR =
        .ok ⟨some (collect_agent_outputs tasksM).2, (collect_agent_outputs tasksM).1,
          PyJson.jbool false, maxR⟩ := by
  intro tasksM hokM
  obtain ⟨st2, pre, hEq, hFst⟩ :=
    runLoop_reach oracle maxR base maxR 1 ⟨base, none, none⟩ maxR hmax le_rfl (by omega)
      (fun j hj1 hj2 => Or.inr (hall j hj1 (by omega)))
  have hfail : jsonTruthy (jsonGet (collect_agent_outputs tasksM).2
      "validation_passed" (PyJson.jbool false)) = false := by
    obtain ⟨tasks, hok, hf⟩ := hall maxR hmax le_rfl
    rw [hokM] at hok
    have : tasksM = tasks := Except.ok.inj hok
    rw [this]
    exact hf
  have hf1 : maxR + 1 - maxR = 1 := by omega
  have hInner : runLoop oracle maxR base (maxR + 1 - maxR) maxR st2 =
      ([(maxR, st2.desc)], .ok ⟨some (collect_agent_outputs tasksM).2,
        (collect_agent_outputs tasksM).1, PyJson.jbool false, maxR⟩) := by
    rw [hf1]
    simp only [runLoop, hokM]
    simp [hfail, runLoop]
  have hE : execute_analysis_with_retry oracle base maxR =
      (pre ++ (runLoop oracle maxR base (maxR + 1 - maxR) maxR st2).1,
       (runLoop oracle maxR base (maxR + 1 - maxR) maxR st2).2) := hEq
  show (execute_analysis_with_retry oracle base maxR).2 = _
  rw [hE, hInner]

/-- Claim C7: an exception raised by the workflow run is swallowed on a
non-final attempt — the loop proceeds to the next attempt with unchanged
state — while on the final attempt (attempt = max_retries) it propagates to
the caller; in particular a run whose attempts all fail or raise and whose
final attempt raises ends in an exception. -/
theorem c7_exception_swallow_and_propagate
    (oracle : KickoffOracle) (base : String) (maxR : Nat) :
    (∀ fuel attempt st, oracle attempt = .error () → attempt ≠ maxR →
      runLoop oracle maxR base (fuel + 1) attempt st =
        ((attempt, st.desc) :: (runLoop oracle maxR base fuel (attempt + 1) st).1,
         (runLoop oracle maxR base fuel (attempt + 1) st).2)) ∧
    (∀ fuel st, oracle maxR = .error () →
      runLoop oracle maxR base (fuel + 1) maxR st = ([(maxR, st.desc)], .error ())) ∧
    (1 ≤ maxR → (∀ j, 1 ≤ j → j < maxR → attemptNonPassing oracle j) →
      oracle maxR = .error () →
      execResult oracle base maxR = .error ()) := by
  refine ⟨?_, ?_, ?_⟩
  · intro fuel attempt st hr hne
    have hbeq : (attempt == maxR) = false := by simp [hne]
    simp only [runLoop, hr]
    simp [hbeq]
  · intro fuel st hr
    simp only [runLoop, hr]
    simp
  · intro hmax hprev hr
    obtain ⟨st2, pre, hEq, hFst⟩ :=
      runLoop_reach oracle maxR base maxR 1 ⟨base, none, none⟩ maxR hmax le_rfl (by omega)
        hprev
    have hf1 : maxR + 1 - maxR = 1 := by omega
    have hInner : runLoop oracle maxR base (maxR + 1 - maxR) maxR st2 =
        ([(maxR, st2.desc)], .error ()) := by
      rw [hf1]
      simp only [runLoop, hr]
      simp
    have hE : execute_analysis_with_retry oracle base maxR =
        (pre ++ (runLoop oracle maxR base (maxR + 1 - maxR) maxR st2).1,
         (runLoop oracle maxR base (maxR + 1 - maxR) maxR st2).2) := hEq
    show (execute_analysis_with_retry oracle base maxR).2 = _
    rw [hE, hInner]

/-- Claim C4: when attempt i (1 <= i < max_retries) completes and fails
validation (earlier attempts all having failed or raised), retry attempt
i+1 runs with the producer instruction equal to the original base
instruction with exactly attempt i's validator result and the
corrective-feedback directive appended; moreover every instruction ever
passed to a workflow run is either the base instruction or the base with a
single validator result appended — never an accumulated history. -/
theorem c4_feedback_reflects_previous_attempt_only
    (oracle : KickoffOracle) (base : String) (maxR i : Nat) (tasks : List CrewTask)
    (h1 : 1 ≤ i) (h2 : i < maxR)
    (hprev : ∀ j, 1 ≤ j → j < i → attemptNonPassing oracle j)
    (hok : oracle i = .ok tasks)
    (hfail : jsonTruthy (passedOf tasks) = false) :
    (i + 1, mkRetryDesc base (collect_agent_outputs tasks).2) ∈ execTrace oracle base maxR ∧
    (∀ d, (i + 1, d) ∈ execTrace oracle base maxR →
      d = mkRetryDesc base (collect_agent_outputs tasks).2) ∧
    (∀ e ∈ execTrace oracle base maxR, e.2 = base ∨ ∃ v, e.2 = mkRetryDesc base v) := by
  obtain ⟨st2, pre, hEq, hFst⟩ :=
    runLoop_reach oracle maxR base maxR 1 ⟨base, none, none⟩ i h1 (by omega) (by omega) hprev
  have hfail2 : jsonTruthy (jsonGet (collect_agent_outputs tasks).2
      "validation_passed" (PyJson.jbool false)) = false := hfail
  have hfi : maxR + 1 - i = (maxR - i) + 1 := by omega
  have hInner1 : (runLoop oracle maxR base (maxR + 1 - i) i st2).1 =
      (i, st2.desc) :: (runLoop oracle maxR base (maxR - i) (i + 1)
        ⟨mkRetryDesc base (collect_agent_outputs tasks).2,
         (collect_agent_outputs tasks).1, some (collect_agent_outputs tasks).2⟩).1 := by
    rw [hfi]
    simp only [runLoop, hok]
    simp [hfail2]
  have hmi : maxR - i = (maxR - i - 1) + 1 := by omega
  obtain ⟨rest, hHead⟩ := runLoop_trace_head oracle maxR base (maxR - i - 1) (i + 1)
    ⟨mkRetryDesc base (collect_agent_outputs tasks).2, (collect_agent_outputs tasks).1,
     some (collect_agent_outputs tasks).2⟩
  have hTraceEq : execTrace oracle base maxR =
      pre ++ (runLoop oracle maxR base (maxR + 1 - i) i st2).1 := by
    show (execute_analysis_with_retry oracle base maxR).1 = _
    rw [show execute_analysis_with_retry oracle base maxR =
      (pre ++ (runLoop oracle maxR base (maxR + 1 - i) i st2).1,
       (runLoop oracle maxR base (maxR + 1 - i) i st2).2) from hEq]
  have hmem : (i + 1, mkRetryDesc base (collect_agent_outputs tasks).2) ∈
      execTrace oracle base maxR := by
    rw [hTraceEq, hInner1]
    refine List.mem_append_right _ ?_
    refine List.mem_cons_of_mem _ ?_
    rw [hmi, hHead]
    exact List.mem_cons_self _ _
  have hNodup : ((execTrace oracle base maxR).map Prod.fst).Nodup := by
    have hfst := runLoop_trace_fst oracle maxR base maxR 1 ⟨base, none, none⟩
    show (((runLoop oracle maxR base maxR 1 ⟨base, none, none⟩).1).map Prod.fst).Nodup
    rw [hfst]
    exact List.nodup_range' _ _
  refine ⟨hmem, fun d hd => mem_pairs_unique _ hNodup (i + 1) d _ hd hmem, ?_⟩
  intro e he
  exact runLoop_desc_inv oracle maxR base maxR 1 ⟨base, none, none⟩ (Or.inl rfl) e he

/-- Claim C1 (amended): the run counts as validation success — returning
immediately from attempt 1 — if and only if the parsed validator result's
`validation_passed` value is truthy under Python truthiness (the code tests
`if validation_passed:`, not `is True`); a truthy non-boolean such as the
string "true" therefore also counts as success. -/
theorem c1_success_policy_is_truthiness
    (oracle : KickoffOracle) (base : String) (maxR : Nat) (tasks : List CrewTask)
    (hmax : 2 ≤ maxR) (hok : oracle 1 = .ok tasks) :
    ((execTrace oracle base maxR).length = 1 ↔ jsonTruthy (passedOf tasks) = true) ∧
    (jsonTruthy (passedOf tasks) = true →
      execResult oracle base maxR =
        .ok ⟨some (collect_agent_outputs tasks).2, (collect_agent_outputs tasks).1,
          passedOf tasks, 1⟩) := by
  have h1 : maxR = (maxR - 1) + 1 := by omega
  by_cases hp : jsonTruthy (passedOf tasks) = true
  · have hp2 : jsonTruthy (jsonGet (collect_agent_outputs tasks).2
        "validation_passed" (PyJson.jbool false)) = true := hp
    have hTr : execute_analysis_with_retry oracle base maxR =
        ([(1, base)], .ok ⟨some (collect_agent_outputs tasks).2,
          (collect_agent_outputs tasks).1,
          jsonGet (collect_agent_outputs tasks).2 "validation_passed" (PyJson.jbool false), 1⟩) := by
      show runLoop oracle maxR base maxR 1 ⟨base, none, none⟩ = _
      rw [h1]
      simp only [runLoop, hok]
      simp [hp2]
    refine ⟨⟨fun _ => hp, fun _ => ?_⟩, fun _ => ?_⟩
    · show (execute_analysis_with_retry oracle base maxR).1.length = 1
      rw [hTr]
      rfl
    · show (execute_analysis_with_retry oracle base maxR).2 = _
      rw [hTr]
      rfl
  · have hp2 : jsonTruthy (jsonGet (collect_agent_outputs tasks).2
        "validation_passed" (PyJson.jbool false)) = false := by
      simpa [passedOf] using hp
    have hTr1 : (execute_analysis_with_retry oracle base maxR).1 =
        (1, base) :: (runLoop oracle maxR base (maxR - 1) 2
          ⟨mkRetryDesc base (collect_agent_outputs tasks).2,
           (collect_agent_outputs tasks).1, some (collect_agent_outputs tasks).2⟩).1 := by
      show (runLoop oracle maxR base maxR 1 ⟨base, none, none⟩).1 = _
      conv_lhs => rw [h1]
      simp only [runLoop, hok]
      simp [hp2]
      rw [← h1]
    have h2 : maxR - 1 = (maxR - 2) + 1 := by omega
    obtain ⟨rest, hHead⟩ := runLoop_trace_head oracle maxR base (maxR - 2) 2
      ⟨mkRetryDesc base (collect_agent_outputs tasks).2,
       (collect_agent_outputs tasks).1, some (collect_agent_outputs tasks).2⟩
    have hlen : (execute_analysis_with_retry oracle base maxR).1.length ≠ 1 := by
      rw [hTr1, h2, hHead]
      simp
    refine ⟨⟨fun hl => absurd hl hlen, fun hpt => absurd hpt hp⟩,
      fun hpt => absurd hpt hp⟩

/-- Claim C1 counterexample: with max_retries = 2 and the validator's
`validation_passed` equal to the string "true" on attempt 1, the
orchestrator returns success immediately (one single kickoff, attempts = 1,
the truthy non-boolean value returned as the flag) — so a truthy
non-boolean value does count as success, contradicting the claim. -/
theorem c1_counterexample_truthy_string_counts_as_success :
    execResult oracleTruthyString "base" 2 =
      .ok ⟨some (PyJson.jobj [("validation_passed", PyJson.jstr "true")]), none,
        PyJson.jstr "true", 1⟩ ∧
    execTrace oracleTruthyString "base" 2 = [(1, "base")] ∧
    PyJson.jstr "true" ≠ PyJson.jbool true := by
  refine ⟨rfl, rfl, fun h => PyJson.noConfusion h⟩

/-- Witness for the amended claim C1: a concrete passing first attempt
satisfies the hypotheses, and the conclusion follows by the theorem. -/
theorem c1_success_policy_is_truthiness_witness :
    ((execTrace oracleTruthyString "base" 2).length = 1 ↔
      jsonTruthy (passedOf [⟨"Expert Database Validator",
        some (.withRaw "\x7b\"validation_passed\": \"true\"\x7d")⟩]) = true) ∧
    (jsonTruthy (passedOf [⟨"Expert Database Validator",
        some (.withRaw "\x7b\"validation_passed\": \"true\"\x7d")⟩]) = true →
      execResult oracleTruthyString "base" 2 =
        .ok ⟨some (collect_agent_outputs [⟨"Expert Database Validator",
            some (.withRaw "\x7b\"validation_passed\": \"true\"\x7d")⟩]).2,
          (collect_agent_outputs [⟨"Expert Database Validator",
            some (.withRaw "\x7b\"validation_passed\": \"true\"\x7d")⟩]).1,
          passedOf [⟨"Expert Database Validator",
            some (.withRaw "\x7b\"validation_passed\": \"true\"\x7d")⟩], 1⟩) :=
  c1_success_policy_is_truthiness oracleTruthyString "base" 2 _ (by decide) rfl

/-- Claim C2 (amended): no entity output file is written when the
orchestrator's validation flag is falsy; under a truthy flag, a missing
(None) or empty analyst result also writes no file, a non-empty analyst
result that fails to parse as JSON leaves only the truncated empty file
created by `open(..., "w")` and re-raises, and a file with content is
written if and only if the analyst result is a non-empty string that
parses as JSON (the persistence guard is
`if validation_success and analyst_result:`). -/
theorem c2_persistence_requires_flag_and_analyst_output
    (vs : PyJson) (ar : Option String) :
    (jsonTruthy vs = false → persistEntityOutput vs ar = .noFile) ∧
    (jsonTruthy vs = true → ar = none → persistEntityOutput vs ar = .noFile) ∧
    (jsonTruthy vs = true → ar = some "" → persistEntityOutput vs ar = .noFile) ∧
    (∀ s, jsonTruthy vs = true → ar = some s → s ≠ "" → jsonParse s = none →
      persistEntityOutput vs ar = .emptyFileThenRaise) ∧
    (∀ j, persistEntityOutput vs ar = .written j ↔
      (jsonTruthy vs = true ∧ ∃ s, ar = some s ∧ s ≠ "" ∧ jsonParse s = some j)) := by
  refine ⟨?_, ?_, ?_, ?_, ?_⟩
  · intro hv
    simp [persistEntityOutput, hv]
  · intro hv har
    subst har
    simp [persistEntityOutput, optStrTruthy]
  · intro hv har
    subst har
    simp [persistEntityOutput, optStrTruthy]
  · intro s hv har hs hp
    subst har
    have hst : optStrTruthy (some s) = true := by simp [optStrTruthy, hs]
    simp [persistEntityOutput, hv, hst, hp]
  · intro j
    constructor
    · intro hw
      by_cases hv : jsonTruthy vs = true
      · cases ar with
        | none => simp [persistEntityOutput, hv, optStrTruthy] at hw
        | some s =>
          by_cases hs : s = ""
          · subst hs
            simp [persistEntityOutput, hv, optStrTruthy] at hw
          · have hst : optStrTruthy (some s) = true := by
              simp [optStrTruthy, hs]
            cases hparse : jsonParse s with
            | none =>
              simp [persistEntityOutput, hv, hst, hparse] at hw
            | some j2 =>
              simp only [persistEntityOutput, hv, hst, Bool.and_self, if_true,
                hparse] at hw
              cases hw
              exact ⟨hv, s, rfl, hs, hparse⟩
      · have hv2 : jsonTruthy vs = false := by simpa using hv
        simp [persistEntityOutput, hv2] at hw
    · rintro ⟨hv, s, rfl, hs, hparse⟩
      have hst : optStrTruthy (some s) = true := by simp [optStrTruthy, hs]
      simp [persistEntityOutput, hv, hst, hparse]

/-- Claim C2 counterexample: the orchestrator reports validation success
(flag is the boolean true, attempts = 1) yet no entity output file is
written, because the analyst result is None and the persistence guard is
the conjunction `validation_success and analyst_result` — refuting the
claimed "whenever it reports success the file is written". -/
theorem c2_counterexample_success_without_file :
    execResult oracleNoAnalyst "d" 3 =
      .ok ⟨some (PyJson.jobj [("validation_passed", PyJson.jbool true)]), none,
        PyJson.jbool true, 1⟩ ∧
    entityPersistRun oracleNoAnalyst "d" 3 = .ok .noFile := ⟨rfl, rfl⟩

/-- Witness for the amended claim C2, one concrete instance per branch: a
falsy flag writes nothing, a truthy flag with a None or empty analyst
result writes nothing, a truthy flag with a non-empty unparsable analyst
result leaves the truncated empty file and re-raises, and the
written-with-content iff at a parsable analyst result — all by the
theorem. -/
theorem c2_persistence_requires_flag_and_analyst_output_witness :
    persistEntityOutput (PyJson.jbool false) (some "[1]") = .noFile ∧
    persistEntityOutput (PyJson.jbool true) none = .noFile ∧
    persistEntityOutput (PyJson.jbool true) (some "") = .noFile ∧
    persistEntityOutput (PyJson.jbool true) (some "not json") = .emptyFileThenRaise ∧
    (persistEntityOutput (PyJson.jbool true) (some "[1]") = .written (PyJson.jarr [PyJson.jnum 1]) ↔
      (jsonTruthy (PyJson.jbool true) = true ∧
        ∃ s, (some "[1]" : Option String) = some s ∧ s ≠ "" ∧
          jsonParse s = some (PyJson.jarr [PyJson.jnum 1]))) :=
  ⟨(c2_persistence_requires_flag_and_analyst_output (PyJson.jbool false) (some "[1]")).1 rfl,
   (c2_persistence_requires_flag_and_analyst_output (PyJson.jbool true) none).2.1 rfl rfl,
   (c2_persistence_requires_flag_and_analyst_output (PyJson.jbool true) (some "")).2.2.1
     rfl rfl,
   (c2_persistence_requires_flag_and_analyst_output (PyJson.jbool true)
     (some "not json")).2.2.2.1 "not json" rfl rfl (by decide) rfl,
   (c2_persistence_requires_flag_and_analyst_output (PyJson.jbool true) (some "[1]")).2.2.2.2
     (PyJson.jarr [PyJson.jnum 1])⟩

theorem dropWhile_append_of_all {p : Char → Bool} :
    ∀ (l rest : List Char), (∀ c ∈ l, p c = true) →
      List.dropWhile p (l ++ rest) = List.dropWhile p rest := by
  intro l
  induction l with
  | nil => intro rest _; rfl
  | cons c t ih =>
    intro rest h
    rw [List.cons_append, List.dropWhile_cons,
      if_pos (h c (List.mem_cons_self c t))]
    exact ih rest (fun x hx => h x (List.mem_cons_of_mem c hx))

/-- Claim C3 (amended): the extraction is greedy — for an input made of a
brace-free prefix, a first opening brace, arbitrary middle text, a last
closing brace and a closing-brace-free tail, the matched span runs from the
first opening brace to the last closing brace (not to the first closing
brace); and on every input the function either returns the parsed JSON of
that single greedy span or — when no span exists or the span fails to parse
(as happens when two JSON blocks are separated by other text) — returns
`{"raw_output": <original string>}`, never an exception. -/
theorem c3_greedy_span_and_total_fallback :
    (∀ (l1 mid l2 : List Char), (∀ c ∈ l1, c ≠ '{') → (∀ c ∈ l2, c ≠ '}') →
      braceSpan (l1 ++ '{' :: (mid ++ '}' :: l2)) = some ('{' :: (mid ++ ['}']))) ∧
    (∀ s : String,
      (∃ span j, braceSpan s.data = some span ∧ jsonParse (String.mk span) = some j ∧
        parse_validator_output s = j) ∨
      parse_validator_output s = PyJson.jobj [("raw_output", PyJson.jstr s)]) := by
  constructor
  · intro l1 mid l2 h1 h2
    have ht : List.dropWhile (fun c => c != '{') (l1 ++ '{' :: (mid ++ '}' :: l2)) =
        '{' :: (mid ++ '}' :: l2) := by
      rw [dropWhile_append_of_all l1 _ (fun c hc => by simp [h1 c hc])]
      rw [List.dropWhile_cons]
      simp
    have hrev : ('{' :: (mid ++ '}' :: l2)).reverse =
        l2.reverse ++ ('}' :: (mid.reverse ++ ['{'])) := by
      simp
    have hu : List.dropWhile (fun c => c != '}') (('{' :: (mid ++ '}' :: l2)).reverse) =
        '}' :: (mid.reverse ++ ['{']) := by
      rw [hrev, dropWhile_append_of_all _ _ (fun c hc => by
        simp [h2 c (List.mem_reverse.mp hc)])]
      rw [List.dropWhile_cons]
      simp
    simp only [braceSpan, ht, hu]
    have hlen : 2 ≤ (('}' :: (mid.reverse ++ ['{'])).reverse).length := by
      simp
    rw [if_pos hlen]
    simp
  · intro s
    cases hb : braceSpan s.data with
    | none =>
      right
      simp [parse_validator_output, hb]
    | some span =>
      cases hp : jsonParse (String.mk span) with
      | none =>
        right
        simp [parse_validator_output, hb, hp]
      | some j =>
        left
        exact ⟨span, j, rfl, hp, by simp [parse_validator_output, hb, hp]⟩

/-- Claim C3 counterexample: for a valid JSON object followed by trailing
text containing a second JSON block, the greedy span covers both blocks and
fails to parse, so the function returns the raw wrapper — not the first
block parsed, contradicting the claim. -/
theorem c3_counterexample_two_blocks_not_first_parsed :
    parse_validator_output "\x7b\"a\": 1\x7d x \x7b\"b\": 2\x7d" =
      PyJson.jobj [("raw_output", PyJson.jstr "\x7b\"a\": 1\x7d x \x7b\"b\": 2\x7d")] ∧
    parse_validator_output "\x7b\"a\": 1\x7d x \x7b\"b\": 2\x7d" ≠
      PyJson.jobj [("a", PyJson.jnum 1)] := by
  refine ⟨rfl, ?_⟩
  intro h
  rw [show parse_validator_output "\x7b\"a\": 1\x7d x \x7b\"b\": 2\x7d" =
    PyJson.jobj [("raw_output", PyJson.jstr "\x7b\"a\": 1\x7d x \x7b\"b\": 2\x7d")] from rfl] at h
  injection h with hfields
  injection hfields with hhead
  injection hhead with hk hv
  exact absurd hk (by decide)

/-- Witness for the amended claim C3: the span characterization at a
concrete input with text on both sides of the braces, and the fallback
branch at a concrete brace-free input, both by the theorem. -/
theorem c3_greedy_span_and_total_fallback_witness :
    braceSpan (['x'] ++ '{' :: ([' '] ++ '}' :: ['y'])) =
      some ('{' :: ([' '] ++ ['}'])) ∧
    ((∃ span j, braceSpan "plain".data = some span ∧
        jsonParse (String.mk span) = some j ∧ parse_validator_output "plain" = j) ∨
      parse_validator_output "plain" = PyJson.jobj [("raw_output", PyJson.jstr "plain")]) :=
  ⟨c3_greedy_span_and_total_fallback.1 ['x'] [' '] ['y'] (by decide) (by decide),
   c3_greedy_span_and_total_fallback.2 "plain"⟩

theorem keyInSeen_nil (y : PyJson) : keyInSeen [] y = false := by
  cases h : fkKey y <;> simp [keyInSeen, h]

theorem dedupFkLoop_keepFirst :
    ∀ (l : List PyJson) (seen : List (PyJson × PyJson × PyJson × PyJson)) (acc : List PyJson),
      (∀ x ∈ l, fkKeyOk x = true) →
      dedupFkLoop seen acc l =
        .ok (acc ++ keepFirstByKey (l.filter (fun y => !keyInSeen seen y))) := by
  intro l
  induction l with
  | nil =>
    intro seen acc _
    simp [dedupFkLoop, keepFirstByKey]
  | cons x rest ih =>
    intro seen acc hall
    have hx := hall x (List.mem_cons_self x rest)
    have hrest : ∀ y ∈ rest, fkKeyOk y = true :=
      fun y hy => hall y (List.mem_cons_of_mem x hy)
    cases hk : fkKey x with
    | none => simp [fkKeyOk, hk] at hx
    | some k =>
    have hh : keyHashable k = true := by simpa [fkKeyOk, hk] using hx
    by_cases hin : (seen.any fun k0 => keyBeq k0 k) = true
    · have hkin : keyInSeen seen x = true := by simp [keyInSeen, hk, hin]
      rw [show dedupFkLoop seen acc (x :: rest) = dedupFkLoop seen acc rest by
        simp [dedupFkLoop, hk, hh, hin]]
      rw [ih seen acc hrest]
      rw [List.filter_cons]
      simp [hkin]
    · have hnin : (seen.any fun k0 => keyBeq k0 k) = false := by simpa using hin
      have hkin : keyInSeen seen x = false := by simp [keyInSeen, hk, hnin]
      rw [show dedupFkLoop seen acc (x :: rest) = dedupFkLoop (k :: seen) (acc ++ [x]) rest by
        simp [dedupFkLoop, hk, hh, hnin]]
      rw [ih (k :: seen) (acc ++ [x]) hrest]
      rw [List.filter_cons]
      simp only [hkin, Bool.not_false, if_true]
      rw [keepFirstByKey]
      have hfilter : (rest.filter (fun y => !keyInSeen seen y)).filter
          (fun y => !sameFkKey x y) = rest.filter (fun y => !keyInSeen (k :: seen) y) := by
        rw [List.filter_filter]
        refine List.filter_congr ?_
        intro y hy
        have hoy := hrest y hy
        cases hky : fkKey y with
        | none => simp [fkKeyOk, hky] at hoy
        | some ky =>
          simp [keyInSeen, sameFkKey, hk, hky, Bool.not_or, Bool.and_comm]
      rw [hfilter]
      simp

/-- One file's effect on the three buckets, in terms of its contribution. -/
theorem processOneFile_buckets
    (b : Buckets) (f : SrcFile) (b2 : Buckets) (ws : List String)
    (h : processOneFile b f = .ok (b2, ws)) :
    b2.foreign_keys = b.foreign_keys ++ fileContrib .foreignKeys f ∧
    b2.columns = b.columns ++ fileContrib .columns f ∧
    b2.tables = b.tables ++ fileContrib .tables f := by
  by_cases hsuf : List.isSuffixOf ".json".data f.name.data = true
  · cases hp : jsonParse f.content with
    | none =>
      simp only [processOneFile, hsuf, if_true, hp] at h
      cases h
      simp [fileContrib, hsuf, hp]
    | some d =>
      cases hd : detect_file_type f.name with
      | none =>
        simp only [processOneFile, hsuf, if_true, hp, hd] at h
        cases h
        simp [fileContrib, hsuf, hp, hd]
      | some k =>
        cases he : extendRecords d with
        | error e =>
          simp only [processOneFile, hsuf, if_true, hp, hd, he] at h
          cases h
        | ok recs =>
          simp only [processOneFile, hsuf, if_true, hp, hd, he] at h
          cases h
          cases k <;> simp [fileContrib, hsuf, hp, hd, he, addToBucket]
  · have hsuf2 : List.isSuffixOf ".json".data f.name.data = false :=
      Bool.eq_false_iff.mpr hsuf
    simp only [processOneFile, hsuf2, Bool.false_eq_true, if_false] at h
    cases h
    simp [fileContrib, hsuf2]

/-- Unfolding of the file loop on a cons cell. -/
theorem processFiles_cons_eq (b0 : Buckets) (f : SrcFile) (rest : List SrcFile) :
    processFiles b0 (f :: rest) =
      match processOneFile b0 f with
      | .error e => .error e
      | .ok p =>
        match processFiles p.1 rest with
        | .error e => .error e
        | .ok q => .ok (q.1, p.2 ++ q.2) := rfl

/-- The file loop concatenates per-file contributions in listing order. -/
theorem processFiles_buckets :
    ∀ (files : List SrcFile) (b0 b : Buckets) (ws : List String),
      processFiles b0 files = .ok (b, ws) →
      b.foreign_keys = b0.foreign_keys ++ (files.map (fileContrib .foreignKeys)).flatten ∧
      b.columns = b0.columns ++ (files.map (fileContrib .columns)).flatten ∧
      b.tables = b0.tables ++ (files.map (fileContrib .tables)).flatten := by
  intro files
  induction files with
  | nil =>
    intro b0 b ws h
    simp only [processFiles] at h
    cases h
    simp
  | cons f rest ih =>
    intro b0 b ws h
    rw [processFiles_cons_eq] at h
    split at h
    · cases h
    · rename_i p hpf
      split at h
      · cases h
      · rename_i q hrest
        cases h
        obtain ⟨hf1, hf2, hf3⟩ := processOneFile_buckets b0 f p.1 p.2 hpf
        obtain ⟨hr1, hr2, hr3⟩ := ih p.1 q.1 q.2 hrest
        refine ⟨?_, ?_, ?_⟩ <;>
          simp [hr1, hr2, hr3, hf1, hf2, hf3, List.append_assoc]

/-- Claim C8: the consolidation deduplicates only the foreign-keys bucket,
by the 4-tuple (table, column, ref_table, ref_column) with the first
occurrence in merge order kept and later duplicates dropped (the loop
refines the spec's canonical keep-first recursion `keepFirstByKey`), while
the columns and tables buckets are exactly the concatenation of per-file
contributions in listing order, with no deduplication. -/
theorem c8_dedup_only_foreign_keys
    (files : List SrcFile) (b : Buckets) (ws : List String)
    (hrun : processFiles emptyBuckets files = .ok (b, ws)) :
    (b.foreign_keys = (files.map (fileContrib .foreignKeys)).flatten ∧
     b.columns = (files.map (fileContrib .columns)).flatten ∧
     b.tables = (files.map (fileContrib .tables)).flatten) ∧
    ((∀ x ∈ b.foreign_keys, fkKeyOk x = true) →
      consolidateRun files =
        .ok ({ b with foreign_keys := keepFirstByKey b.foreign_keys }, ws)) := by
  constructor
  · have h := processFiles_buckets files emptyBuckets b ws hrun
    simpa [emptyBuckets] using h
  · intro hkeys
    have hfilter : b.foreign_keys.filter (fun y => !keyInSeen [] y) = b.foreign_keys :=
      List.filter_eq_self.mpr (fun a _ => by simp [keyInSeen_nil])
    have hd : dedupForeignKeys b.foreign_keys = .ok (keepFirstByKey b.foreign_keys) := by
      unfold dedupForeignKeys
      rw [dedupFkLoop_keepFirst b.foreign_keys [] [] hkeys, hfilter]
      rfl
    have hcr : consolidateRun files =
        match dedupForeignKeys b.foreign_keys with
        | .error e => .error e
        | .ok fks => .ok ({ b with foreign_keys := fks }, ws) := by
      unfold consolidateRun
      rw [hrun]
    rw [hcr, hd]

theorem processFiles_skip_invalid
    (f : SrcFile) (hsuf : List.isSuffixOf ".json".data f.name.data = true)
    (hbad : jsonParse f.content = none) :
    ∀ (l1 l2 : List SrcFile) (b : Buckets),
      Except.map Prod.fst (processFiles b (l1 ++ f :: l2)) =
        Except.map Prod.fst (processFiles b (l1 ++ l2)) ∧
      (∀ b2 ws, processFiles b (l1 ++ f :: l2) = .ok (b2, ws) →
        ("⚠️ Skipping invalid JSON file: " ++ f.name) ∈ ws) := by
  have hstep : ∀ b, processOneFile b f =
      .ok (b, ["⚠️ Skipping invalid JSON file: " ++ f.name]) := by
    intro b
    simp [processOneFile, hsuf, hbad]
  intro l1
  induction l1 with
  | nil =>
    intro l2 b
    constructor
    · show Except.map Prod.fst (processFiles b (f :: l2)) =
        Except.map Prod.fst (processFiles b l2)
      rw [processFiles_cons_eq, hstep b]
      cases hr : processFiles b l2 with
      | error e => cases e; simp [hr, Except.map]
      | ok q => simp [hr, Except.map]
    · intro b2 ws h
      simp only [List.nil_append] at h
      rw [processFiles_cons_eq, hstep b] at h
      have h2 : (match processFiles b l2 with
        | .error e => Except.error e
        | .ok q => Except.ok (q.1,
            ("⚠️ Skipping invalid JSON file: " ++ f.name) :: q.2)) =
          Except.ok (b2, ws) := h
      cases hr : processFiles b l2 with
      | error e => rw [hr] at h2; cases h2
      | ok q =>
        rw [hr] at h2
        cases h2
        exact List.mem_cons_self _ _
  | cons g l1 ih =>
    intro l2 b
    simp only [List.cons_append]
    constructor
    · rw [processFiles_cons_eq b g (l1 ++ f :: l2), processFiles_cons_eq b g (l1 ++ l2)]
      cases hg : processOneFile b g with
      | error e => cases e; simp [Except.map]
      | ok p =>
        have hmap := (ih l2 p.1).1
        cases hin1 : processFiles p.1 (l1 ++ f :: l2) with
        | error e =>
          cases e
          cases hin2 : processFiles p.1 (l1 ++ l2) with
          | error e2 => cases e2; simp [hin1, hin2, Except.map]
          | ok q2 =>
            rw [hin1, hin2] at hmap
            simp [Except.map] at hmap
        | ok q =>
          cases hin2 : processFiles p.1 (l1 ++ l2) with
          | error e2 =>
            cases e2
            rw [hin1, hin2] at hmap
            simp [Except.map] at hmap
          | ok q2 =>
            rw [hin1, hin2] at hmap
            simp only [Except.map] at hmap
            have hq : q.1 = q2.1 := Except.ok.inj hmap
            simp [hin1, hin2, Except.map, hq]
    · intro b2 ws h
      rw [processFiles_cons_eq] at h
      split at h
      · cases h
      · rename_i p hg
        split at h
        · cases h
        · rename_i q hq
          cases h
          exact List.mem_append_right _ ((ih l2 p.1).2 q.1 q.2 hq)

/-- Claim C9 (amended): a `.json` file whose content fails to parse, or
whose filename matches no classification suffix, is skipped with a logged
warning and never aborts the run — removing an unparsable file changes
neither the buckets nor whether the run completes, and its skip warning is
logged — while a file not ending in `.json` is skipped silently, with no
warning at all. -/
theorem c9_skip_and_continue (b : Buckets) (f : SrcFile) :
    (List.isSuffixOf ".json".data f.name.data = false →
      processOneFile b f = .ok (b, [])) ∧
    (List.isSuffixOf ".json".data f.name.data = true → jsonParse f.content = none →
      processOneFile b f = .ok (b, ["⚠️ Skipping invalid JSON file: " ++ f.name])) ∧
    (∀ d, List.isSuffixOf ".json".data f.name.data = true →
      jsonParse f.content = some d → detect_file_type f.name = none →
      processOneFile b f =
        .ok (b, ["⚠️ Unknown file type for " ++ f.name ++ ", skipping."])) ∧
    (∀ l1 l2, List.isSuffixOf ".json".data f.name.data = true →
      jsonParse f.content = none →
      Except.map Prod.fst (processFiles b (l1 ++ f :: l2)) =
        Except.map Prod.fst (processFiles b (l1 ++ l2)) ∧
      (∀ b2 ws, processFiles b (l1 ++ f :: l2) = .ok (b2, ws) →
        ("⚠️ Skipping invalid JSON file: " ++ f.name) ∈ ws)) := by
  refine ⟨?_, ?_, ?_, ?_⟩
  · intro hsuf
    simp [processOneFile, hsuf]
  · intro hsuf hbad
    simp [processOneFile, hsuf, hbad]
  · intro d hsuf hparse hdet
    simp [processOneFile, hsuf, hparse, hdet]
  · intro l1 l2 hsuf hbad
    exact processFiles_skip_invalid f hsuf hbad l1 l2 b

/-- Claim C9 counterexample: a file whose name matches no classification
suffix but does not end in `.json` is skipped silently — the run logs no
warning for it — contradicting the claim that every such file is "skipped
with a logged warning". -/
theorem c9_counterexample_silent_skip_without_warning :
    detect_file_type "notes.txt" = none ∧
    processFiles emptyBuckets [⟨"notes.txt", "x"⟩] = .ok (emptyBuckets, []) :=
  ⟨rfl, rfl⟩

theorem dedupFkLoop_error_of_badkey :
    ∀ (l : List PyJson) (x : PyJson), x ∈ l → fkKey x = none →
      ∀ seen acc, dedupFkLoop seen acc l = .error () := by
  intro l
  induction l with
  | nil => intro x hx; cases hx
  | cons y rest ih =>
    intro x hx hbad seen acc
    cases hk : fkKey y with
    | none => simp [dedupFkLoop, hk]
    | some k =>
      have hxr : x ∈ rest := by
        rcases List.mem_cons.mp hx with he | ht
        · exfalso
          rw [he] at hbad
          rw [hbad] at hk
          cases hk
        · exact ht
      by_cases hh : keyHashable k = true
      · by_cases hin : (seen.any fun k0 => keyBeq k0 k) = true
        · rw [show dedupFkLoop seen acc (y :: rest) = dedupFkLoop seen acc rest by
            simp [dedupFkLoop, hk, hh, hin]]
          exact ih x hxr hbad _ _
        · have hnin : (seen.any fun k0 => keyBeq k0 k) = false := by simpa using hin
          rw [show dedupFkLoop seen acc (y :: rest) =
              dedupFkLoop (k :: seen) (acc ++ [y]) rest by
            simp [dedupFkLoop, hk, hh, hnin]]
          exact ih x hxr hbad _ _
      · have hh2 : keyHashable k = false := Bool.eq_false_iff.mpr hh
        simp [dedupFkLoop, hk, hh2]

/-- Claim C10: if any record merged into the foreign-keys bucket lacks one
of the four key fields (or is not an object), the dedup loop raises an
uncaught error, the consolidation run aborts, and — because the output
write happens only after deduplication — no consolidated document is
written: the prior consolidated file, whatever it was, is left unchanged. -/
theorem c10_missing_key_aborts_before_write
    (files : List SrcFile) (b : Buckets) (ws : List String) (x : PyJson)
    (hrun : processFiles emptyBuckets files = .ok (b, ws))
    (hx : x ∈ b.foreign_keys) (hbad : fkKey x = none) :
    consolidateRun files = .error () ∧
    ∀ prior, consolidatedFileAfterRun prior files = prior := by
  have hd : dedupForeignKeys b.foreign_keys = .error () :=
    dedupFkLoop_error_of_badkey b.foreign_keys x hx hbad [] []
  have hc : consolidateRun files = .error () := by
    have hcr : consolidateRun files =
        match dedupForeignKeys b.foreign_keys with
        | .error e => .error e
        | .ok fks => .ok ({ b with foreign_keys := fks }, ws) := by
      unfold consolidateRun
      rw [hrun]
    rw [hcr, hd]
  refine ⟨hc, fun prior => ?_⟩
  unfold consolidatedFileAfterRun
  rw [hc]

/-- Witness for claim C4: with a concrete always-failing validator and
max_retries = 2, retry attempt 2's recorded instruction is the base plus
attempt 1's validator feedback, by the theorem. -/
theorem c4_feedback_reflects_previous_attempt_only_witness :
    (2, mkRetryDesc "B" (collect_agent_outputs tasksFailing).2) ∈
      execTrace oracleAllFail "B" 2 :=
  (c4_feedback_reflects_previous_attempt_only oracleAllFail "B" 2 1 tasksFailing
    (by omega) (by omega) (fun j h1 h2 => by omega) rfl rfl).1

/-- Witness for claim C5: at max_retries = 2 with a first attempt passing
(truthily), the trace is bounded by 2 and the run returns attempt 1's
outputs with attempts = 1, by the theorem. -/
theorem c5_retry_bound_and_early_return_witness :
    (execTrace oracleTruthyString "base" 2).length ≤ 2 ∧
    execResult oracleTruthyString "base" 2 =
      .ok ⟨some (collect_agent_outputs tasksTruthy).2,
        (collect_agent_outputs tasksTruthy).1, passedOf tasksTruthy, 1⟩ :=
  ⟨(c5_retry_bound_and_early_return oracleTruthyString "base" 2 (by omega)).1,
   ((c5_retry_bound_and_early_return oracleTruthyString "base" 2 (by omega)).2
     1 tasksTruthy (by omega) (by omega) (fun j h1 h2 => by omega) rfl rfl).1⟩

/-- Witness for claim C6: with every attempt of a 2-attempt run completing
and failing, the run returns the last attempt's outputs with the boolean
False and attempts = 2, by the theorem. -/
theorem c6_exhaustion_returns_last_outputs_witness :
    execResult oracleAllFail "B" 2 =
      .ok ⟨some (collect_agent_outputs tasksFailing).2,
        (collect_agent_outputs tasksFailing).1, PyJson.jbool false, 2⟩ :=
  c6_exhaustion_returns_last_outputs oracleAllFail "B" 2 (by omega)
    (fun j h1 h2 => ⟨tasksFailing, rfl, rfl⟩) tasksFailing rfl

/-- Witness for claim C7: with every attempt raising and max_retries = 2,
attempt 1's exception is swallowed (the loop steps to attempt 2 with
unchanged state) and the whole run propagates the exception, by the
theorem. -/
theorem c7_exception_swallow_and_propagate_witness :
    runLoop oracleAllRaise 2 "B" 2 1 ⟨"B", none, none⟩ =
      ((1, "B") :: (runLoop oracleAllRaise 2 "B" 1 2 ⟨"B", none, none⟩).1,
       (runLoop oracleAllRaise 2 "B" 1 2 ⟨"B", none, none⟩).2) ∧
    execResult oracleAllRaise "B" 2 = .error () :=
  ⟨(c7_exception_swallow_and_propagate oracleAllRaise "B" 2).1 1 1
      ⟨"B", none, none⟩ rfl (by omega),
   (c7_exception_swallow_and_propagate oracleAllRaise "B" 2).2.2 (by omega)
      (fun j h1 h2 => Or.inl rfl) rfl⟩

/-- Witness for claim C8: on the spec's FK_A/FK_B example the dedup stage
equals the keep-first recursion by the theorem, and evaluating the run
directly shows exactly the first-encountered record FK_A surviving while
the columns and tables buckets stay untouched.  The last two conjuncts
exercise the Python set semantics of the key: a boolean-keyed record is a
duplicate of an integer-keyed one (`True == 1`), and a list-valued key
component aborts the loop as an unhashable type. -/
theorem c8_dedup_only_foreign_keys_witness :
    consolidateRun [fkFileA, fkFileB] =
      .ok ({ foreign_keys := keepFirstByKey [fkRecA, fkRecB], columns := [],
             tables := [] },
        ["✅ Merged a_relationships.json into foreign_keys",
         "✅ Merged b_relationships.json into foreign_keys"]) ∧
    consolidateRun [fkFileA, fkFileB] =
      .ok ({ foreign_keys := [fkRecA], columns := [], tables := [] },
        ["✅ Merged a_relationships.json into foreign_keys",
         "✅ Merged b_relationships.json into foreign_keys"]) ∧
    dedupForeignKeys [fkRecIntKey, fkRecBoolKey] = .ok [fkRecIntKey] ∧
    dedupForeignKeys [fkRecListKey] = .error () :=
  ⟨((c8_dedup_only_foreign_keys [fkFileA, fkFileB] ⟨[fkRecA, fkRecB], [], []⟩
      ["✅ Merged a_relationships.json into foreign_keys",
       "✅ Merged b_relationships.json into foreign_keys"] rfl).2 (by
      intro x hx
      rcases List.mem_cons.mp hx with h | h
      · rw [h]; rfl
      · rw [List.mem_singleton.mp h]; rfl)),
   rfl, rfl, rfl⟩

/-- Witness for claim C9 (amended): a non-.json file is skipped silently, a
parse-failing .json file and an unclassifiable .json file are skipped with
their warnings, and dropping the parse-failing file from a directory of
two valid schema files leaves the resulting buckets unchanged — all by the
theorem. -/
theorem c9_skip_and_continue_witness :
    processOneFile emptyBuckets ⟨"notes.txt", "x"⟩ = .ok (emptyBuckets, []) ∧
    processOneFile emptyBuckets invalidFile =
      .ok (emptyBuckets, ["⚠️ Skipping invalid JSON file: bad.json"]) ∧
    processOneFile emptyBuckets ⟨"extra.json", "\x7b\x7d"⟩ =
      .ok (emptyBuckets, ["⚠️ Unknown file type for extra.json, skipping."]) ∧
    Except.map Prod.fst (processFiles emptyBuckets ([colFileA] ++ invalidFile :: [colFileB])) =
      Except.map Prod.fst (processFiles emptyBuckets ([colFileA] ++ [colFileB])) :=
  ⟨(c9_skip_and_continue emptyBuckets ⟨"notes.txt", "x"⟩).1 rfl,
   (c9_skip_and_continue emptyBuckets invalidFile).2.1 rfl rfl,
   (c9_skip_and_continue emptyBuckets ⟨"extra.json", "\x7b\x7d"⟩).2.2.1
     (PyJson.jobj []) rfl rfl rfl,
   ((c9_skip_and_continue emptyBuckets invalidFile).2.2.2 [colFileA] [colFileB]
     rfl rfl).1⟩

/-- Witness for claim C10: a relationships file whose record lacks the key
fields makes the run abort with an error and leaves a concrete prior
consolidated file unchanged, by the theorem. -/
theorem c10_missing_key_aborts_before_write_witness :
    consolidateRun [badFkFile] = .error () ∧
    consolidatedFileAfterRun (some emptyBuckets) [badFkFile] = some emptyBuckets :=
  ⟨(c10_missing_key_aborts_before_write [badFkFile]
      ⟨[PyJson.jobj [("name", PyJson.jstr "f")]], [], []⟩
      ["✅ Merged x_relationships.json into foreign_keys"]
      (PyJson.jobj [("name", PyJson.jstr "f")]) rfl (List.mem_singleton.mpr rfl) rfl).1,
   (c10_missing_key_aborts_before_write [badFkFile]
      ⟨[PyJson.jobj [("name", PyJson.jstr "f")]], [], []⟩
      ["✅ Merged x_relationships.json into foreign_keys"]
      (PyJson.jobj [("name", PyJson.jstr "f")]) rfl (List.mem_singleton.mpr rfl) rfl).2
     (some emptyBuckets)⟩
